import Mathlib

/-!
Verification development for the `FileOrganise` repository
(`src/File_organize.py`).

The file shallowly embeds the core of the program:

* the durable task store (`load_tasks`, `save_tasks`, `add_task`,
  `remove_task`, `list_tasks`), with the backing JSON file modelled as an
  explicit `TaskFileState` value and the JSON document as an inductive
  `Json` tree;
* the classifier implicit in `organize_files` (`FILE_TYPES`,
  `os.path.splitext(file)[1].lower()`, first-match lookup);
* one organize pass (`organize_files`), with the directory contents as an
  explicit state and the possibility that `shutil.move` raises modelled by
  an explicit failure predicate.
-/

set_option autoImplicit false

namespace FileOrganise

/-- A stored task, mirroring the dict
`{"interval": interval, "unit": unit, "directory": directory}` written by
`add_task` (File_organize.py, lines 106-110).  `interval` comes from
`argparse` with `type=int`, hence `Int`. -/
structure Task where
  interval : Int
  unit : String
  directory : String
deriving DecidableEq

/-- The in-memory task mapping: a Python `dict` keyed by task name, in
insertion order, mirrored as an association list. -/
abbrev TaskMap := List (String × Task)

/-- A JSON document, at the level of structure that `json.dump` /
`json.load` exchange for this program: the store only ever contains an
object of objects with integer and string leaves, so numbers, strings and
objects suffice (a non-object top level is still representable, which is
what the `isinstance(tasks, dict)` check in `load_tasks` guards against). -/
inductive Json where
  | num (n : Int)
  | str (s : String)
  | obj (fields : List (String × Json))

/-- Encoding of one task value, as written by `json.dump` (dict key order
is insertion order, matching lines 106-110 of the source). -/
def encodeTask (t : Task) : Json :=
  Json.obj [("interval", Json.num t.interval), ("unit", Json.str t.unit),
            ("directory", Json.str t.directory)]

/-- Encoding of the whole task dict. -/
def encodeTasks : TaskMap → List (String × Json)
  | [] => []
  | (k, t) :: m => (k, encodeTask t) :: encodeTasks m

/-- Decoding of one task value.  `json.load` returns the parsed structure
unvalidated; the store is only ever written by `save_tasks`, so the exact
shape produced by `encodeTask` is the one that occurs. -/
def decodeTask : Json → Option Task
  | Json.obj [("interval", Json.num i), ("unit", Json.str u),
              ("directory", Json.str d)] => some ⟨i, u, d⟩
  | _ => none

/-- Decoding of the fields of the top-level object back into a task dict. -/
def decodeFields : List (String × Json) → Option TaskMap
  | [] => some []
  | (k, j) :: fs =>
    match decodeTask j, decodeFields fs with
    | some t, some m => some ((k, t) :: m)
    | _, _ => none

/-- State of the backing file `file_tasks.json`: missing
(`FileNotFoundError` on open), present but unparseable
(`json.JSONDecodeError`), or present with a parsed JSON document. -/
inductive TaskFileState where
  | missing
  | corrupt
  | good (j : Json)

/-- Model of `load_tasks` (lines 54-61): a missing file or a parse error
yields `{}`; a parsed document that is not a dict yields `{}` (the
`isinstance(tasks, dict)` check); otherwise the stored dict is returned
(its values decoded, which never fails on a store written by
`save_tasks`). -/
def load_tasks : TaskFileState → TaskMap
  | TaskFileState.missing => []
  | TaskFileState.corrupt => []
  | TaskFileState.good (Json.obj fields) =>
    match decodeFields fields with
    | some m => m
    | none => []
  | TaskFileState.good _ => []

/-- Model of `save_tasks` (lines 63-66): `json.dump(tasks, f)` replaces the
file contents with the serialized dict. -/
def save_tasks (tasks : TaskMap) : TaskFileState :=
  TaskFileState.good (Json.obj (encodeTasks tasks))

/-- Insertion into a Python dict (`tasks[task_name] = new_task_details`,
line 123): if the key is present its value is replaced in place, otherwise
the pair is appended. -/
def dictInsert : TaskMap → String → Task → TaskMap
  | [], k, v => [(k, v)]
  | (k', v') :: m, k, v =>
    if k' == k then (k', v) :: m else (k', v') :: dictInsert m k v

/-- The duplicate check of `add_task` (lines 113-118): an existing task
with the same `(interval, unit, directory)` triple. -/
def tripleMatches (t : Task) (interval : Int) (unit directory : String) : Bool :=
  t.interval == interval && t.unit == unit && t.directory == directory

/-- Result of `add_task`: either the generated task name, or the duplicate
early return of lines 119-120 (the spec's `DuplicateTaskError`). -/
inductive AddResult where
  | added (task_name : String)
  | duplicate
deriving DecidableEq

/-- Model of `add_task` (lines 101-131): load the dict, generate the name
`task_{len(tasks)+1}`, reject on an exact triple match leaving the file
untouched, otherwise insert and save.  (The live-scheduler
`scheduler.add_job` call has no effect on the store and is outside this
model.) -/
def add_task (interval : Int) (unit directory : String) (s : TaskFileState) :
    TaskFileState × AddResult :=
  let tasks := load_tasks s
  let task_name := "task_" ++ toString (tasks.length + 1)
  if tasks.any (fun p => tripleMatches p.2 interval unit directory) then
    (s, AddResult.duplicate)
  else
    (save_tasks (dictInsert tasks task_name ⟨interval, unit, directory⟩),
     AddResult.added task_name)

/-- Result of `remove_task`: removal, or the early not-found return of
lines 147-149 (the spec's `TaskNotFoundError`). -/
inductive RemoveResult where
  | removed
  | notFound
deriving DecidableEq

/-- Model of `remove_task` (lines 144-162): load the dict; if the name is
absent report not-found with the file untouched; otherwise `del` the entry
and save.  (`del` on a dict removes the entry with that key; on the
unique-key dicts the program produces this equals filtering the key out.
The trailing `scheduler.remove_job` call only touches live-trigger state
and its exception is swallowed, lines 154-162.) -/
def remove_task (task_name : String) (s : TaskFileState) :
    TaskFileState × RemoveResult :=
  let tasks := load_tasks s
  if tasks.any (fun p => p.1 == task_name) then
    (save_tasks (tasks.filter (fun p => p.1 != task_name)), RemoveResult.removed)
  else
    (s, RemoveResult.notFound)

/-- Model of `list_tasks` (lines 133-142): the displayed tasks are exactly
the ones loaded from the store. -/
def list_tasks (s : TaskFileState) : TaskMap :=
  load_tasks s

/-- Number of stored tasks whose triple matches. -/
def countTriple (m : TaskMap) (interval : Int) (unit directory : String) : Nat :=
  (m.filter (fun p => tripleMatches p.2 interval unit directory)).length

/-- Lowercasing of one character, the per-character action of Python's
`str.lower()` on the basic latin range (the only range the extension table
touches); identical to `Char.toLower` of the Lean core library. -/
def lowerChar (c : Char) : Char :=
  if h : 65 ≤ c.toNat ∧ c.toNat ≤ 90 then
    Char.ofNatAux (c.toNat + 32) (Or.inl (by omega))
  else c

/-- Model of `str.lower()`: lowercase every character. -/
def strToLower (s : String) : String :=
  String.mk (s.data.map lowerChar)

/-- The extension of a plain file name (no path separators), as computed by
`os.path.splitext(file)[1]` (CPython `genericpath._splitext`): the suffix
starting at the last dot, except that a name whose characters before its
last dot are all dots (for example `".bashrc"` or `"..."`) has no
extension. -/
def extSplit (name : List Char) : List Char :=
  match name.reverse.dropWhile (fun c => c != '.') with
  | [] => []
  | _ :: before =>
    if before.any (fun c => c != '.') then
      '.' :: (name.reverse.takeWhile (fun c => c != '.')).reverse
    else []

/-- String-level wrapper for `extSplit`. -/
def splitextExt (file : String) : String :=
  String.mk (extSplit file.data)

/-- The extension table of the source (lines 32-41), an insertion-ordered
dict of category to extension list. -/
def FILE_TYPES : List (String × List String) :=
  [("Images", [".jpg", ".jpeg", ".png", ".gif", ".bmp", ".tiff", ".svg"]),
   ("Videos", [".mp4", ".mkv", ".flv", ".mov", ".avi", ".wmv"]),
   ("Documents", [".pdf", ".doc", ".docx", ".xls", ".xlsx", ".ppt", ".pptx", ".txt"]),
   ("Audio", [".mp3", ".wav", ".aac", ".flac", ".ogg"]),
   ("Archives", [".zip", ".rar", ".tar", ".gz", ".7z"]),
   ("Executables", [".exe", ".msi", ".bat", ".sh"]),
   ("Code", [".py", ".js", ".html", ".css", ".java", ".cpp", ".c", ".php"]),
   ("Data", [".csv", ".json", ".xml", ".sql", ".db"])]

/-- The category lookup loop of `organize_files` (lines 79-83): scan
`FILE_TYPES` in order, stop at the first category whose list contains the
extension, default `"Others"`. -/
def lookupCat (file_extension : String) : String :=
  match FILE_TYPES.find? (fun p => p.2.contains file_extension) with
  | some p => p.1
  | none => "Others"

/-- The classifier implicit in lines 76-83 of `organize_files`:
`os.path.splitext(file)[1].lower()`, then the first-match table lookup. -/
def classify (file : String) : String :=
  lookupCat (strToLower (splitextExt file))

/-- The substring after the last dot of a name (empty when the name has no
dot).  This is not what the code computes; it is the wording of the claim
that classification depends only on "the substring after the last dot",
kept for comparison with `splitextExt`. -/
def afterLastDot (name : String) : String :=
  match name.data.reverse.dropWhile (fun c => c != '.') with
  | [] => ""
  | _ :: _ => String.mk (name.data.reverse.takeWhile (fun c => c != '.')).reverse

/-- A regular file in a directory: its name and an abstract tag standing
for its contents (so that overwriting one file with another is
observable). -/
structure FileEnt where
  name : String
  content : Nat
deriving DecidableEq

/-- The immediate subdirectories of the organized directory, each with the
regular files it contains. -/
abbrev Subdirs := List (String × List FileEnt)

/-- State of the organized directory: its immediate regular files (the
`os.path.isfile` filter of line 72) and its immediate subdirectories. -/
structure Dir where
  files : List FileEnt
  subdirs : Subdirs
deriving DecidableEq

/-- Lines 86-88: `os.makedirs(category_folder)` when
`os.path.exists(category_folder)` is false (idempotent create). -/
def ensureDir (sds : Subdirs) (category : String) : Subdirs :=
  if sds.any (fun p => p.1 == category) then sds else sds ++ [(category, [])]

/-- Arrival of a file in a folder's file list: a same-named file already
there is replaced, otherwise the file is appended. -/
def insertFileEnt : List FileEnt → FileEnt → List FileEnt
  | [], f => [f]
  | g :: fs, f => if g.name == f.name then f :: fs else g :: insertFileEnt fs f

/-- Line 91: `shutil.move` of a file into an existing category folder.  A
same-named file already at the destination is silently replaced (POSIX
rename semantics); otherwise the file is appended. -/
def placeFile (sds : Subdirs) (category : String) (f : FileEnt) : Subdirs :=
  sds.map (fun p =>
    if p.1 == category then (p.1, insertFileEnt p.2 f) else p)

/-- The events the pass records (`logging` and `log_to_mongodb` calls):
one per moved file (line 92-93), one on normal completion (lines 95-96),
one in the `except` handler (lines 97-99). -/
inductive Event where
  | fileMoved (file category : String)
  | organizationCompleted
  | moveError (file : String)
deriving DecidableEq

/-- The severity level passed to `log_to_mongodb`: `"INFO"` by default,
`"ERROR"` in the `except` handler (line 99). -/
def Event.level : Event → String
  | Event.moveError _ => "ERROR"
  | _ => "INFO"

/-- Outcome of one organize pass: the remaining top-level files, the
subdirectories, the recorded events, and whether the pass ran to
completion (`ok = false` means the `except` branch was taken). -/
structure PassResult where
  files : List FileEnt
  subdirs : Subdirs
  events : List Event
  ok : Bool
deriving DecidableEq

/-- The `for file in files` loop of lines 74-96, inside the single `try`
of line 70.  `moveFails file` models `shutil.move` raising for that file
(permission error and the like); the exception propagates out of the loop
into the `except` handler, so the remaining files are left untouched and a
single ERROR event is recorded.  Note `os.makedirs` (line 88) has already
run when the move raises. -/
def organizeGo (moveFails : String → Bool) :
    List FileEnt → Subdirs → PassResult
  | [], sds => ⟨[], sds, [Event.organizationCompleted], true⟩
  | f :: rest, sds =>
    let category := classify f.name
    let sds1 := ensureDir sds category
    if moveFails f.name then
      ⟨f :: rest, sds1, [Event.moveError f.name], false⟩
    else
      let r := organizeGo moveFails rest (placeFile sds1 category f)
      ⟨r.files, r.subdirs, Event.fileMoved f.name category :: r.events, r.ok⟩

/-- Model of `organize_files` (lines 68-99) on an existing, listable
directory. -/
def organize_files (moveFails : String → Bool) (d : Dir) : PassResult :=
  organizeGo moveFails d.files d.subdirs

/-
Theorems.
-/

theorem decodeTask_encodeTask (t : Task) : decodeTask (encodeTask t) = some t := by
  cases t
  rfl

theorem decodeFields_encodeTasks (m : TaskMap) :
    decodeFields (encodeTasks m) = some m := by
  induction m with
  | nil => rfl
  | cons p m ih =>
    cases p with
    | mk k t => simp [encodeTasks, decodeFields, decodeTask_encodeTask, ih]

/-- The save→load round trip at the level of the backing file. -/
theorem load_save (m : TaskMap) : load_tasks (save_tasks m) = m := by
  simp [load_tasks, save_tasks, decodeFields_encodeTasks]

theorem tripleMatches_self (i : Int) (u d : String) :
    tripleMatches ⟨i, u, d⟩ i u d = true := by
  simp [tripleMatches]

theorem countTriple_eq_zero (m : TaskMap) (i : Int) (u d : String)
    (h : ∀ p ∈ m, tripleMatches p.2 i u d = false) :
    countTriple m i u d = 0 := by
  simp only [countTriple, List.length_eq_zero]
  exact List.filter_eq_nil_iff.mpr (fun p hp => by simp [h p hp])

theorem countTriple_dictInsert (m : TaskMap) (k : String) (i : Int) (u d : String)
    (h : ∀ p ∈ m, tripleMatches p.2 i u d = false) :
    countTriple (dictInsert m k ⟨i, u, d⟩) i u d = 1 := by
  induction m with
  | nil => simp [dictInsert, countTriple, tripleMatches_self]
  | cons p m ih =>
    have hp : tripleMatches p.2 i u d = false := h p (by simp)
    have hm : ∀ q ∈ m, tripleMatches q.2 i u d = false :=
      fun q hq => h q (by simp [hq])
    by_cases hk : (p.1 == k) = true
    · cases p with
      | mk k' v' =>
        have h0 : countTriple m i u d = 0 := countTriple_eq_zero m i u d hm
        simp only [countTriple, List.filter] at h0 ⊢
        simp [dictInsert, hk, tripleMatches_self, h0]
    · cases p with
      | mk k' v' =>
        have h1 := ih hm
        simp only [countTriple, List.filter] at h1 ⊢
        simp only [dictInsert] at *
        simp only [hk] at *
        simp [hp] at *
        simp [h1]

theorem any_snd_dictInsert (m : TaskMap) (k : String) (v : Task)
    (q : Task → Bool) (hq : q v = true) :
    (dictInsert m k v).any (fun p => q p.2) = true := by
  induction m with
  | nil => simp [dictInsert, hq]
  | cons p m ih =>
    by_cases hk : (p.1 == k) = true
    · simp [dictInsert, hk, hq]
    · simp only [dictInsert, hk, if_false, Bool.if_false_left]
      simp [List.any_cons, ih]

/-- C1: on a store that holds no task with the given `(interval, unit,
directory)` triple, the first `add_task` returns the generated name and
persists exactly one task with that triple, and an immediate second
`add_task` with the same triple is rejected as a duplicate and leaves the
stored file unchanged. -/
theorem add_task_duplicate_rejected (s : TaskFileState) (i : Int) (u d : String)
    (h : ∀ p ∈ load_tasks s, tripleMatches p.2 i u d = false) :
    (add_task i u d s).2 =
      AddResult.added ("task_" ++ toString ((load_tasks s).length + 1)) ∧
    countTriple (load_tasks (add_task i u d s).1) i u d = 1 ∧
    add_task i u d (add_task i u d s).1 =
      ((add_task i u d s).1, AddResult.duplicate) := by
  have hany : (load_tasks s).any (fun p => tripleMatches p.2 i u d) = false :=
    List.any_eq_false.mpr (fun p hp => by simp [h p hp])
  have h1 : add_task i u d s =
      (save_tasks (dictInsert (load_tasks s)
        ("task_" ++ toString ((load_tasks s).length + 1)) ⟨i, u, d⟩),
       AddResult.added ("task_" ++ toString ((load_tasks s).length + 1))) := by
    simp [add_task, hany]
  refine ⟨by rw [h1], ?_, ?_⟩
  · rw [h1]
    rw [load_save]
    exact countTriple_dictInsert (load_tasks s) _ i u d h
  · rw [h1]
    have hdup : (dictInsert (load_tasks s)
        ("task_" ++ toString ((load_tasks s).length + 1)) ⟨i, u, d⟩).any
          (fun p => tripleMatches p.2 i u d) = true :=
      any_snd_dictInsert _ _ _ (fun t => tripleMatches t i u d)
        (tripleMatches_self i u d)
    simp [add_task, load_save, hdup]

/-- Witness for `add_task_duplicate_rejected` at the spec's own example,
`(interval = 10, unit = minutes, directory = /tmp/x)` on an empty store. -/
theorem add_task_duplicate_rejected_witness :
    (add_task 10 "minutes" "/tmp/x" TaskFileState.missing).2 =
      AddResult.added ("task_" ++ toString ((load_tasks TaskFileState.missing).length + 1)) ∧
    countTriple (load_tasks (add_task 10 "minutes" "/tmp/x" TaskFileState.missing).1)
      10 "minutes" "/tmp/x" = 1 ∧
    add_task 10 "minutes" "/tmp/x" (add_task 10 "minutes" "/tmp/x" TaskFileState.missing).1 =
      ((add_task 10 "minutes" "/tmp/x" TaskFileState.missing).1, AddResult.duplicate) :=
  add_task_duplicate_rejected TaskFileState.missing 10 "minutes" "/tmp/x" (by decide)

/-- C2 fails on the code: `add_task` names the new task
`task_{len(tasks)+1}`, so after `add(/a); add(/b); remove(task_1)` the next
`add(/c)` is again named `task_2`, reusing the id of the still-stored `/b`
task and silently replacing that task in the store. -/
theorem add_task_reuses_removed_id :
    (add_task 5 "minutes" "/b" (add_task 5 "minutes" "/a" TaskFileState.missing).1).2 =
      AddResult.added "task_2" ∧
    (add_task 5 "minutes" "/c" (remove_task "task_1"
        (add_task 5 "minutes" "/b" (add_task 5 "minutes" "/a" TaskFileState.missing).1).1).1).2 =
      AddResult.added "task_2" ∧
    "task_2" ∈ (load_tasks (remove_task "task_1"
        (add_task 5 "minutes" "/b" (add_task 5 "minutes" "/a" TaskFileState.missing).1).1).1).map Prod.fst ∧
    load_tasks (add_task 5 "minutes" "/c" (remove_task "task_1"
        (add_task 5 "minutes" "/b" (add_task 5 "minutes" "/a" TaskFileState.missing).1).1).1).1 =
      [("task_2", ⟨5, "minutes", "/c"⟩)] := by
  decide

/-- C4: saving a (non-empty) task mapping and loading it back reproduces
the mapping exactly. -/
theorem save_load_roundtrip (tasks : TaskMap) (_h : tasks ≠ []) :
    load_tasks (save_tasks tasks) = tasks :=
  load_save tasks

/-- Witness for `save_load_roundtrip` on a concrete one-task mapping. -/
theorem save_load_roundtrip_witness :
    load_tasks (save_tasks [("task_1", ⟨10, "minutes", "/tmp/x"⟩)]) =
      [("task_1", ⟨10, "minutes", "/tmp/x"⟩)] :=
  save_load_roundtrip [("task_1", ⟨10, "minutes", "/tmp/x"⟩)] (by decide)

/-- C8: a missing backing file and an unparseable backing file both load
as the empty task mapping (the `except (FileNotFoundError,
json.JSONDecodeError)` branch of `load_tasks`). -/
theorem load_tasks_fails_soft :
    load_tasks TaskFileState.missing = [] ∧ load_tasks TaskFileState.corrupt = [] :=
  ⟨rfl, rfl⟩

theorem any_key_filter_ne (m : TaskMap) (id : String) :
    ((m.filter (fun p => p.1 != id)).any (fun p => p.1 == id)) = false := by
  rw [List.any_eq_false]
  intro p hp
  have h2 := (List.mem_filter.mp hp).2
  simp only [bne] at h2
  simp at h2 ⊢
  exact h2

/-- C9: removing an existing id succeeds, after which the listed tasks
exclude that id and a second removal of the same id reports not-found;
removing an absent id reports not-found and leaves the stored file
unchanged. -/
theorem remove_task_spec :
    (∀ (s : TaskFileState) (id : String),
      (load_tasks s).any (fun p => p.1 == id) = true →
        (remove_task id s).2 = RemoveResult.removed ∧
        ((list_tasks (remove_task id s).1).any (fun p => p.1 == id)) = false ∧
        remove_task id (remove_task id s).1 =
          ((remove_task id s).1, RemoveResult.notFound)) ∧
    (∀ (s : TaskFileState) (id : String),
      (load_tasks s).any (fun p => p.1 == id) = false →
        remove_task id s = (s, RemoveResult.notFound)) := by
  constructor
  · intro s id h
    have h1 : remove_task id s =
        (save_tasks ((load_tasks s).filter (fun p => p.1 != id)), RemoveResult.removed) := by
      simp [remove_task, h]
    refine ⟨by rw [h1], ?_, ?_⟩
    · rw [h1]
      simp only [list_tasks]
      rw [load_save]
      exact any_key_filter_ne (load_tasks s) id
    · rw [h1]
      have h2 := any_key_filter_ne (load_tasks s) id
      simp [remove_task, load_save, h2]
  · intro s id h
    simp [remove_task, h]

/-- Witness for `remove_task_spec`: on a store holding `task_1`, removing
`task_1` succeeds (then lists nothing with that id and reports not-found
the second time), and removing the absent `task_9` is a no-op not-found. -/
theorem remove_task_spec_witness :
    ((remove_task "task_1" (save_tasks [("task_1", ⟨5, "minutes", "/a"⟩)])).2 =
        RemoveResult.removed ∧
      ((list_tasks (remove_task "task_1"
          (save_tasks [("task_1", ⟨5, "minutes", "/a"⟩)])).1).any
            (fun p => p.1 == "task_1")) = false ∧
      remove_task "task_1" (remove_task "task_1"
          (save_tasks [("task_1", ⟨5, "minutes", "/a"⟩)])).1 =
        ((remove_task "task_1" (save_tasks [("task_1", ⟨5, "minutes", "/a"⟩)])).1,
          RemoveResult.notFound)) ∧
    remove_task "task_9" (save_tasks [("task_1", ⟨5, "minutes", "/a"⟩)]) =
      (save_tasks [("task_1", ⟨5, "minutes", "/a"⟩)], RemoveResult.notFound) :=
  ⟨remove_task_spec.1 (save_tasks [("task_1", ⟨5, "minutes", "/a"⟩)]) "task_1" (by decide),
   remove_task_spec.2 (save_tasks [("task_1", ⟨5, "minutes", "/a"⟩)]) "task_9" (by decide)⟩

theorem charToNat_inj {c d : Char} (h : c.toNat = d.toNat) : c = d :=
  Char.ext (UInt32.toNat.inj h)

theorem toNat_lowerChar (c : Char) :
    (lowerChar c).toNat =
      if 65 ≤ c.toNat ∧ c.toNat ≤ 90 then c.toNat + 32 else c.toNat := by
  unfold lowerChar
  split <;> rfl

theorem lowerChar_eq_self (c : Char) (h : ¬(65 ≤ c.toNat ∧ c.toNat ≤ 90)) :
    lowerChar c = c := by
  unfold lowerChar
  exact dif_neg h

theorem lowerChar_eq_dot_iff (c : Char) : lowerChar c = '.' ↔ c = '.' := by
  constructor
  · intro h
    by_cases hc : 65 ≤ c.toNat ∧ c.toNat ≤ 90
    · exfalso
      have h1 : (lowerChar c).toNat = ('.').toNat := by rw [h]
      rw [toNat_lowerChar, if_pos hc] at h1
      have h2 : ('.').toNat = 46 := by decide
      omega
    · rw [lowerChar_eq_self c hc] at h
      exact h
  · intro h
    rw [h]
    decide

theorem lowerChar_idem (c : Char) : lowerChar (lowerChar c) = lowerChar c := by
  by_cases hc : 65 ≤ c.toNat ∧ c.toNat ≤ 90
  · apply lowerChar_eq_self
    rw [toNat_lowerChar, if_pos hc]
    omega
  · rw [lowerChar_eq_self c hc]
    exact lowerChar_eq_self c hc

theorem bne_dot_lowerChar (c : Char) : (lowerChar c != '.') = (c != '.') := by
  by_cases h : c = '.'
  · rw [h, (lowerChar_eq_dot_iff '.').mpr rfl]
  · have h2 : lowerChar c ≠ '.' := fun he => h ((lowerChar_eq_dot_iff c).mp he)
    rw [bne_iff_ne.mpr h2, bne_iff_ne.mpr h]

theorem extSplit_map_lower (l : List Char) :
    extSplit (l.map lowerChar) = (extSplit l).map lowerChar := by
  have hpred : ((fun c : Char => c != '.') ∘ lowerChar) = (fun c : Char => c != '.') :=
    funext fun c => bne_dot_lowerChar c
  have hdotl : lowerChar '.' = '.' := (lowerChar_eq_dot_iff '.').mpr rfl
  unfold extSplit
  rw [← List.map_reverse, List.dropWhile_map, List.takeWhile_map, hpred]
  cases hcase : l.reverse.dropWhile (fun c : Char => c != '.') with
  | nil => simp
  | cons d before =>
    simp only [List.map_cons]
    rw [List.any_map, hpred]
    by_cases hany : before.any (fun c : Char => c != '.') = true
    · simp [hany, hdotl]
    · simp only [Bool.not_eq_true] at hany
      simp [hany]

theorem splitextExt_strToLower (s : String) :
    splitextExt (strToLower s) = strToLower (splitextExt s) := by
  unfold splitextExt strToLower
  exact congrArg String.mk (extSplit_map_lower s.data)

theorem strToLower_idem (s : String) :
    strToLower (strToLower s) = strToLower s := by
  unfold strToLower
  refine congrArg String.mk ?_
  rw [List.map_map]
  exact List.map_congr_left (fun a _ => lowerChar_idem a)

/-- C3: a name whose lowercased `splitext` extension occurs in the table
classifies as that extension's category; a name whose lowercased
extension occurs in no table entry (in particular, a name with no
extension) classifies as `"Others"`; and classification is
case-insensitive: a name and its lowercasing classify identically. -/
theorem classify_spec :
    (∀ (name cat : String) (exts : List String), (cat, exts) ∈ FILE_TYPES →
      strToLower (splitextExt name) ∈ exts → classify name = cat) ∧
    (∀ name : String, (∀ p ∈ FILE_TYPES, strToLower (splitextExt name) ∉ p.2) →
      classify name = "Others") ∧
    (∀ name : String, classify name = classify (strToLower name)) := by
  refine ⟨?_, ?_, ?_⟩
  · have key : ∀ p ∈ FILE_TYPES, ∀ e ∈ p.2, lookupCat e = p.1 := by decide
    intro name cat exts hmem hext
    exact key (cat, exts) hmem _ hext
  · intro name h
    show lookupCat (strToLower (splitextExt name)) = "Others"
    unfold lookupCat
    cases hfind : FILE_TYPES.find?
        (fun p => p.2.contains (strToLower (splitextExt name))) with
    | none => rfl
    | some p =>
      exfalso
      have hcont := List.find?_some hfind
      have hmem := List.mem_of_find?_eq_some hfind
      simp only [List.contains_iff_exists_mem_beq] at hcont
      rcases hcont with ⟨e, he, hbeq⟩
      exact h p hmem (eq_of_beq hbeq ▸ he)
  · intro name
    show lookupCat (strToLower (splitextExt name)) =
      lookupCat (strToLower (splitextExt (strToLower name)))
    rw [splitextExt_strToLower, strToLower_idem]

/-- Witness for `classify_spec`: `IMG.PNG` classifies as `Images`, the
unknown extension `c.xyz` as `Others`, and `IMG.PNG` classifies like its
lowercasing. -/
theorem classify_spec_witness :
    classify "IMG.PNG" = "Images" ∧
    classify "c.xyz" = "Others" ∧
    classify "IMG.PNG" = classify (strToLower "IMG.PNG") :=
  ⟨classify_spec.1 "IMG.PNG" "Images"
      [".jpg", ".jpeg", ".png", ".gif", ".bmp", ".tiff", ".svg"]
      (by decide) (by decide),
   classify_spec.2.1 "c.xyz" (by decide),
   classify_spec.2.2 "IMG.PNG"⟩

/-- C10 fails on the code: `"x.gz"` and `".gz"` have the same lowercased
substring after their last dot (`"gz"`), yet `os.path.splitext` treats the
leading-dot name `".gz"` as having no extension, so the two names classify
differently. -/
theorem classify_last_dot_counterexample :
    strToLower (afterLastDot "x.gz") = strToLower (afterLastDot ".gz") ∧
    classify "x.gz" = "Archives" ∧
    classify ".gz" = "Others" := by
  decide

/-- C10 amended: classification depends only on the lowercased `splitext`
extension — the suffix from the last dot provided some character before
that dot is not itself a dot; two names with equal lowercased `splitext`
extensions classify identically (names whose pre-dot part is all dots,
such as dotfiles, have no extension and fall to `"Others"`). -/
theorem classify_depends_only_on_splitext_ext (n1 n2 : String)
    (h : strToLower (splitextExt n1) = strToLower (splitextExt n2)) :
    classify n1 = classify n2 := by
  show lookupCat (strToLower (splitextExt n1)) = lookupCat (strToLower (splitextExt n2))
  rw [h]

/-- Witness for `classify_depends_only_on_splitext_ext`:
`archive.tar.gz` and `x.GZ` share the lowercased extension `.gz` and
classify identically. -/
theorem classify_depends_only_on_splitext_ext_witness :
    classify "archive.tar.gz" = classify "x.GZ" :=
  classify_depends_only_on_splitext_ext "archive.tar.gz" "x.GZ" (by decide)

theorem organizeGo_ok_files (mf : String → Bool) (fs : List FileEnt) (sds : Subdirs)
    (h : (organizeGo mf fs sds).ok = true) : (organizeGo mf fs sds).files = [] := by
  induction fs generalizing sds with
  | nil => rfl
  | cons f rest ih =>
    by_cases hf : mf f.name = true
    · simp [organizeGo, hf] at h
    · simp only [Bool.not_eq_true] at hf
      simp only [organizeGo, hf] at h ⊢
      simp only [Bool.false_eq_true, if_false] at h ⊢
      exact ih _ h

/-- C5: a second organize pass over a directory on which a pass has run to
completion moves no file, records no error (only the completion event),
and leaves the directory — category subfolders included — unchanged,
whatever failures the environment would now inject. -/
theorem organize_files_idempotent (mf1 mf2 : String → Bool) (d : Dir)
    (h : (organize_files mf1 d).ok = true) :
    organize_files mf2 ⟨(organize_files mf1 d).files, (organize_files mf1 d).subdirs⟩ =
      ⟨[], (organize_files mf1 d).subdirs, [Event.organizationCompleted], true⟩ := by
  have hfe : (organize_files mf1 d).files = [] :=
    organizeGo_ok_files mf1 d.files d.subdirs h
  show organizeGo mf2 (organize_files mf1 d).files (organize_files mf1 d).subdirs = _
  rw [hfe]
  rfl

/-- Witness for `organize_files_idempotent`: a first failure-free pass
over a directory holding `a.jpg`, then a second pass. -/
theorem organize_files_idempotent_witness :
    organize_files (fun _ => false)
      ⟨(organize_files (fun _ => false) ⟨[⟨"a.jpg", 0⟩], []⟩).files,
       (organize_files (fun _ => false) ⟨[⟨"a.jpg", 0⟩], []⟩).subdirs⟩ =
      ⟨[], (organize_files (fun _ => false) ⟨[⟨"a.jpg", 0⟩], []⟩).subdirs,
       [Event.organizationCompleted], true⟩ :=
  organize_files_idempotent (fun _ => false) (fun _ => false)
    ⟨[⟨"a.jpg", 0⟩], []⟩ (by decide)

/-- C6 fails on the code: the single `try` of `organize_files` wraps the
whole loop, so the first failing move aborts the pass.  Here the move of
`a.jpg` fails: the only recorded event is the one pass-level ERROR, and
`b.mp3` is never processed (it is still a top-level file and no event
mentions it) — there is no aggregate moved/failed count. -/
theorem organize_abort_counterexample :
    (organize_files (fun s => s == "a.jpg")
        ⟨[⟨"a.jpg", 0⟩, ⟨"b.mp3", 1⟩], []⟩).events = [Event.moveError "a.jpg"] ∧
    ⟨"b.mp3", 1⟩ ∈ (organize_files (fun s => s == "a.jpg")
        ⟨[⟨"a.jpg", 0⟩, ⟨"b.mp3", 1⟩], []⟩).files := by
  decide

/-- C6 amended: when the move of file `f` raises and every file listed
before it moves cleanly, the pass stops at `f`: the files from `f` on stay
in the top-level directory, the recorded events are the per-file moves of
the earlier files followed by one pass-level ERROR event, and the pass
does not complete (no aggregate result is produced). -/
theorem organize_aborts_pass_on_move_failure (mf : String → Bool)
    (pre : List FileEnt) (f : FileEnt) (post : List FileEnt) (d : Dir)
    (hd : d.files = pre ++ f :: post)
    (hpre : ∀ g ∈ pre, mf g.name = false)
    (hf : mf f.name = true) :
    (organize_files mf d).files = f :: post ∧
    (organize_files mf d).events =
      pre.map (fun g => Event.fileMoved g.name (classify g.name)) ++
        [Event.moveError f.name] ∧
    Event.level (Event.moveError f.name) = "ERROR" ∧
    (organize_files mf d).ok = false := by
  have key : ∀ (pr : List FileEnt) (sds : Subdirs),
      (∀ g ∈ pr, mf g.name = false) →
      (organizeGo mf (pr ++ f :: post) sds).files = f :: post ∧
      (organizeGo mf (pr ++ f :: post) sds).events =
        pr.map (fun g => Event.fileMoved g.name (classify g.name)) ++
          [Event.moveError f.name] ∧
      (organizeGo mf (pr ++ f :: post) sds).ok = false := by
    intro pr
    induction pr with
    | nil => intro sds _; simp [organizeGo, hf]
    | cons g pr ih =>
      intro sds hp
      have hg : mf g.name = false := hp g (by simp)
      have hrest : ∀ g' ∈ pr, mf g'.name = false :=
        fun g' h' => hp g' (by simp [h'])
      have hik := ih (placeFile (ensureDir sds (classify g.name)) (classify g.name) g) hrest
      simp [organizeGo, hg, hik.1, hik.2.1, hik.2.2]
  show (organizeGo mf d.files d.subdirs).files = _ ∧
    (organizeGo mf d.files d.subdirs).events = _ ∧ _ ∧
    (organizeGo mf d.files d.subdirs).ok = false
  rw [hd]
  rcases key pre d.subdirs hpre with ⟨h1, h2, h3⟩
  exact ⟨h1, h2, rfl, h3⟩

/-- Witness for `organize_aborts_pass_on_move_failure`: `a.jpg` moves,
`b.mp3` fails, `c.txt` is never reached. -/
theorem organize_aborts_pass_on_move_failure_witness :
    (organize_files (fun s => s == "b.mp3")
        ⟨[⟨"a.jpg", 0⟩, ⟨"b.mp3", 1⟩, ⟨"c.txt", 2⟩], []⟩).files =
      (⟨"b.mp3", 1⟩ : FileEnt) :: [⟨"c.txt", 2⟩] ∧
    (organize_files (fun s => s == "b.mp3")
        ⟨[⟨"a.jpg", 0⟩, ⟨"b.mp3", 1⟩, ⟨"c.txt", 2⟩], []⟩).events =
      [(⟨"a.jpg", 0⟩ : FileEnt)].map
          (fun g => Event.fileMoved g.name (classify g.name)) ++
        [Event.moveError "b.mp3"] ∧
    Event.level (Event.moveError "b.mp3") = "ERROR" ∧
    (organize_files (fun s => s == "b.mp3")
        ⟨[⟨"a.jpg", 0⟩, ⟨"b.mp3", 1⟩, ⟨"c.txt", 2⟩], []⟩).ok = false :=
  organize_aborts_pass_on_move_failure (fun s => s == "b.mp3")
    [⟨"a.jpg", 0⟩] ⟨"b.mp3", 1⟩ [⟨"c.txt", 2⟩]
    ⟨[⟨"a.jpg", 0⟩, ⟨"b.mp3", 1⟩, ⟨"c.txt", 2⟩], []⟩ rfl (by decide) (by decide)

/-- C7 fails on the code: when `Images/a.jpg` already exists (content tag
0) and a top-level `a.jpg` (content tag 1) is organized, `shutil.move`
silently replaces the destination file — the pass completes with a
success event and no recorded failure, instead of skipping and recording
a failure. -/
theorem organize_overwrites_on_collision :
    organize_files (fun _ => false)
        ⟨[⟨"a.jpg", 1⟩], [("Images", [⟨"a.jpg", 0⟩])]⟩ =
      ⟨[], [("Images", [⟨"a.jpg", 1⟩])],
       [Event.fileMoved "a.jpg" "Images", Event.organizationCompleted], true⟩ := by
  decide

end FileOrganise
